import Mathlib

/-!
Verification of the cross-chain fusion order orchestration core.

This file gives a shallow embedding of the order orchestration and
secret-release engine:

* the HashLock engine (`generateSecretsAndHashLock` in `fusionUtils`),
* order parameter validation (`validateOrderParams`),
* the retry policy (`retry`),
* the adapter registry (`ChainAdapterFactory`),
* the order manager (`GeneralizedFusionOrderManager`): order creation,
  per-order monitoring ticks (status check and fill processing),
  cancellation and monitoring teardown.

Network collaborators (the settlement service SDK and chain adapters) are
modelled as explicit environment inputs: each operation takes the responses
the collaborators would return.  Randomness is modelled as an explicit
stream of fresh values.  JavaScript-specific behaviours that the source
relies on (truthiness checks on required fields, `x || d` defaulting,
string keys obtained by `toString`) are modelled explicitly.
-/

/-- A chain identifier: the source uses `string | number` throughout. -/
inductive ChainId where
  | str (s : String)
  | num (n : Nat)
deriving DecidableEq, Repr

/-- `chainId.toString()` as used for registry keys and message interpolation. -/
def ChainId.toKey : ChainId → String
  | .str s => s
  | .num n => toString n

/-- JavaScript `x || d` on an optional string field: `undefined` and the
empty string are falsy and yield the default. -/
def jsOrString (v : Option String) (d : String) : String :=
  match v with
  | none => d
  | some s => if s = "" then d else s

/-! ## HashLock engine (`fusionUtils.generateSecretsAndHashLock`) -/

/-- The hash-lock commitment:, either the single-fill form over one secret
or the multi-fill form over a list of leaves. -/
inductive HashLock where
  | forSingleFill (secret : String)
  | forMultipleFills (leaves : List String)
deriving DecidableEq, Repr

/-- Result record of `generateSecretsAndHashLock`. -/
structure SecretsAndHashLock where
  secrets : List String
  secretHashes : List String
  hashLock : HashLock
deriving DecidableEq, Repr

/-- `generateSecretsAndHashLock(secretsCount)`.  The fresh random source
(`getRandomBytes32`, one value per call) is modelled by the stream `rnd`;
`HashLock.hashSecret` by `hashSecret`; the domain-separated
`solidityPackedKeccak256` over a `(uint64 index, bytes32 secretHash)` pair
by `packIdxHash`.  When `secretsCount = 1` the single-fill branch reads
`secrets[0]`; the `headD` default is never used on that branch. -/
def generateSecretsAndHashLock (rnd : Nat → String) (hashSecret : String → String)
    (packIdxHash : Nat → String → String) (secretsCount : Nat) : SecretsAndHashLock :=
  let secrets := (List.range secretsCount).map (fun i => rnd i)
  let secretHashes := secrets.map hashSecret
  let hashLock :=
    if secretsCount = 1 then
      HashLock.forSingleFill (secrets.headD "")
    else
      HashLock.forMultipleFills (secretHashes.mapIdx (fun i h => packIdxHash i h))
  { secrets := secrets, secretHashes := secretHashes, hashLock := hashLock }

/-! ## Order data model (`fusionUtils`) -/

/-- Order lifecycle states. -/
inductive OrderStatus where
  | CREATED
  | PENDING
  | PARTIALLY_FILLED
  | EXECUTED
  | CANCELLED
  | EXPIRED
  | FAILED
deriving DecidableEq, Repr

/-- The terminal statuses relevant to monitoring teardown. -/
def OrderStatus.isTerminal : OrderStatus → Bool
  | .EXECUTED => true
  | .CANCELLED => true
  | _ => false

/-- `UniversalAsset`: identifies a fungible unit on a specific chain. -/
structure UniversalAsset where
  chainId : ChainId
  address : String
  symbol : String
  decimals : Nat
  standard : String
deriving DecidableEq, Repr

/-- `OrderFill`: one recorded fill, keyed by its secret-slot index. -/
structure OrderFill where
  idx : Nat
  amount : String
  txHash : String
  timestamp : Int
  resolver : String
deriving DecidableEq, Repr

/-- `UniversalOrder`. -/
structure UniversalOrder where
  orderHash : String
  srcChain : ChainId
  dstChain : ChainId
  srcAsset : UniversalAsset
  dstAsset : UniversalAsset
  amount : String
  minReturn : String
  maker : String
  taker : Option String
  deadline : Int
  status : OrderStatus
  fills : List OrderFill
  secrets : Option (List String)
  secretHashes : Option (List String)
  hashLock : Option HashLock
deriving DecidableEq, Repr

/-! ## Order validation (`fusionUtils.validateOrderParams`)

The source receives a `Partial<UniversalOrder>` and checks each required
field with a JavaScript truthiness test (`!order[field]`), so an absent
field, a numeric `0` chain id or deadline, and an empty string are all
rejected as missing. -/

/-- The fields of `Partial<UniversalOrder>` inspected by `validateOrderParams`. -/
structure OrderParams where
  srcChain : Option ChainId
  dstChain : Option ChainId
  srcAsset : Option UniversalAsset
  dstAsset : Option UniversalAsset
  amount : Option String
  maker : Option String
  deadline : Option Int
deriving DecidableEq, Repr

/-- JS truthiness of an optional `string | number` chain id. -/
def jsTruthyChain : Option ChainId → Bool
  | none => false
  | some (.str s) => decide (s ≠ "")
  | some (.num n) => decide (n ≠ 0)

/-- JS truthiness of an optional string field. -/
def jsTruthyString : Option String → Bool
  | none => false
  | some s => decide (s ≠ "")

/-- JS truthiness of an optional object field (objects are always truthy). -/
def jsTruthyAsset : Option UniversalAsset → Bool
  | none => false
  | some _ => true

/-- JS truthiness of an optional numeric field (zero is falsy). -/
def jsTruthyInt : Option Int → Bool
  | none => false
  | some i => decide (i ≠ 0)

/-- Accumulator loop reading a non-empty run of decimal digits. -/
def digitsToNatAux : List Char → Nat → Option Nat
  | [], acc => some acc
  | c :: cs, acc =>
    if c.isDigit then digitsToNatAux cs (acc * 10 + (c.toNat - 48)) else none

/-- The natural number denoted by a non-empty digit string, if any. -/
def digitsToNat : List Char → Option Nat
  | [] => none
  | cs => digitsToNatAux cs 0

/-- `BigInt(s)` on the decimal strings this code base feeds it: an
optional leading minus sign followed by decimal digits.  (The empty string
never reaches the conversion here: the preceding truthiness check rejects
it.) -/
def jsBigIntOfString (s : String) : Option Int :=
  match s.data with
  | [] => none
  | c :: cs =>
    if c = '-' then (digitsToNat cs).map (fun n => -(n : Int))
    else (digitsToNat (c :: cs)).map (fun n => (n : Int))

/-- `validateOrderParams(order)`: checks the required fields in source
order, then amount positivity via `BigInt`, then that the deadline is
strictly in the future (`Date.now()/1000` is the explicit `now`).
Errors are the thrown messages. -/
def validateOrderParams (o : OrderParams) (now : Int) : Except String Bool :=
  if !jsTruthyChain o.srcChain then .error "Missing required field: srcChain"
  else if !jsTruthyChain o.dstChain then .error "Missing required field: dstChain"
  else if !jsTruthyAsset o.srcAsset then .error "Missing required field: srcAsset"
  else if !jsTruthyAsset o.dstAsset then .error "Missing required field: dstAsset"
  else if !jsTruthyString o.amount then .error "Missing required field: amount"
  else if !jsTruthyString o.maker then .error "Missing required field: maker"
  else if !jsTruthyInt o.deadline then .error "Missing required field: deadline"
  else
    match jsBigIntOfString (o.amount.getD "") with
    | none => .error "SyntaxError: cannot convert amount to a BigInt"
    | some a =>
      if a ≤ 0 then .error "Amount must be positive"
      else if o.deadline.getD 0 ≤ now then .error "Deadline must be in the future"
      else .ok true

/-- Some required field fails the source's truthiness check. -/
def OrderParams.someRequiredFieldFalsy (o : OrderParams) : Bool :=
  !jsTruthyChain o.srcChain || !jsTruthyChain o.dstChain ||
  !jsTruthyAsset o.srcAsset || !jsTruthyAsset o.dstAsset ||
  !jsTruthyString o.amount || !jsTruthyString o.maker ||
  !jsTruthyInt o.deadline

/-- Stated from the spec's words, for comparison with the code: a required
field is "missing" when it is absent from the partial order. -/
def OrderParams.someRequiredFieldMissingSpec (o : OrderParams) : Bool :=
  o.srcChain.isNone || o.dstChain.isNone ||
  o.srcAsset.isNone || o.dstAsset.isNone ||
  o.amount.isNone || o.maker.isNone || o.deadline.isNone

/-! ## Retry policy (`fusionUtils.retry`) -/

/-- Outcome of `retry`: a success, the propagated last error, or — with
`maxRetries = 0` — the JavaScript `throw lastError!` on an unassigned
variable. -/
inductive RetryOutcome (ε α : Type) where
  | ok (a : α)
  | err (e : ε)
  | noAttempt
deriving DecidableEq, Repr

/-- The `for` loop of `retry`: `i` is the current attempt number,
`remaining` the attempts left, `last` the last error seen.  Returns the
outcome and the number of invocations of the operation performed. -/
def retryGo (op : Nat → Except ε α) : Nat → Nat → Option ε → RetryOutcome ε α × Nat
  | _, 0, last =>
    (match last with
     | some e => .err e
     | none => .noAttempt, 0)
  | i, remaining + 1, _ =>
    match op i with
    | .ok a => (.ok a, 1)
    | .error e =>
      let r := retryGo op (i + 1) remaining (some e)
      (r.1, r.2 + 1)

/-- `retry(operation, maxRetries)`.  The `i`-th invocation of the
operation returns `op i`; the exponential-backoff sleep between failed
attempts has no observable effect on the result and is not modelled. -/
def retry (op : Nat → Except ε α) (maxRetries : Nat) : RetryOutcome ε α × Nat :=
  retryGo op 0 maxRetries none

/-! ## Adapter registry (`ChainAdapterFactory`)

Adapter instances are identified by an allocation tag so that "the
identical (pointer-equal) instance" is expressible: every construction
uses a fresh tag drawn from `nextTag`.  A registered factory is identified
by the name of the adapter class it constructs. -/

/-- A constructed chain adapter instance: its class and its allocation
identity (two adapters are the same object exactly when they are equal). -/
structure ChainAdapter where
  cls : String
  tag : Nat
deriving DecidableEq, Repr

/-- Pointwise update of a string-keyed table. -/
def updateFn {β : Type} (f : String → Option β) (k : String) (v : Option β) :
    String → Option β :=
  fun q => if q = k then v else f q

/-- The registry state: the registered factories (`adapters`), the cache of
constructed instances (`instances`) — both keyed by `chainId.toString()` —
and the allocation counter. -/
structure ChainAdapterFactory where
  adapters : String → Option String
  instances : String → Option ChainAdapter
  nextTag : Nat

/-- `createAdapter(chainId)`: return the cached instance if one exists;
otherwise construct via the registered factory, cache, and return; fail if
no factory is registered for the key. -/
def ChainAdapterFactory.createAdapter (st : ChainAdapterFactory) (chainId : ChainId) :
    Except String (ChainAdapter × ChainAdapterFactory) :=
  let key := chainId.toKey
  match st.instances key with
  | some inst => .ok (inst, st)
  | none =>
    match st.adapters key with
    | none => .error ("No adapter registered for chain ID: " ++ chainId.toKey)
    | some cls =>
      let adapter : ChainAdapter := { cls := cls, tag := st.nextTag }
      .ok (adapter,
        { st with
          instances := updateFn st.instances key (some adapter),
          nextTag := st.nextTag + 1 })

/-- `registerAdapter(chainId, factory)`: install or replace the factory
for the key and drop any cached instance for it. -/
def ChainAdapterFactory.registerAdapter (st : ChainAdapterFactory) (chainId : ChainId)
    (cls : String) : ChainAdapterFactory :=
  let key := chainId.toKey
  { st with
    adapters := updateFn st.adapters key (some cls),
    instances := updateFn st.instances key none }

/-- Well-formedness of the allocation counter: every cached instance was
allocated with a tag below `nextTag`.  This holds for every state built by
the registry's own operations from an instance-free initial state. -/
def ChainAdapterFactory.TagsFresh (st : ChainAdapterFactory) : Prop :=
  ∀ k a, st.instances k = some a → a.tag < st.nextTag

/-! ## Order manager (`GeneralizedFusionOrderManager`)

The manager's mutable maps are modelled as association lists with the
`Map.get`/`Map.set`/`Map.delete` discipline; the set of order hashes with a
live polling interval is `pollingIntervals`.  Connected adapters are
recorded by their chain ids (the manager's `adapters` map, keyed — unlike
the registry — by the raw `string | number` id). -/

/-- `Map.get` on an association list. -/
def lookupA {β : Type} : List (String × β) → String → Option β
  | [], _ => none
  | (k, v) :: rest, q => if k = q then some v else lookupA rest q

/-- `Map.set` on an association list (replace if present, else append). -/
def setA {β : Type} : List (String × β) → String → β → List (String × β)
  | [], q, v => [(q, v)]
  | (k, w) :: rest, q, v =>
    if k = q then (q, v) :: rest else (k, w) :: setA rest q v

/-- The manager state. -/
structure ManagerState where
  adapters : List ChainId
  activeOrders : List (String × UniversalOrder)
  orderSecrets : List (String × List String)
  pollingIntervals : List String
deriving DecidableEq, Repr

/-- `stopOrderMonitoring(orderHash)`: clear and delete the order's polling
interval if it has one. -/
def ManagerState.stopOrderMonitoring (st : ManagerState) (orderHash : String) :
    ManagerState :=
  { st with pollingIntervals := st.pollingIntervals.erase orderHash }

/-- `startOrderMonitoring(orderHash)`: install the order's polling interval. -/
def ManagerState.startOrderMonitoring (st : ManagerState) (orderHash : String) :
    ManagerState :=
  if orderHash ∈ st.pollingIntervals then st
  else { st with pollingIntervals := st.pollingIntervals ++ [orderHash] }

/-- `checkOrderStatus(orderHash)`.  `statusResp` is the settlement
service's `getOrderStatus` response (an exception is caught and logged,
leaving the state unchanged). -/
def GeneralizedFusionOrderManager.checkOrderStatus (st : ManagerState)
    (orderHash : String) (statusResp : Except String String) : ManagerState :=
  match lookupA st.activeOrders orderHash with
  | none => st
  | some order =>
    match statusResp with
    | .error _ => st
    | .ok s =>
      if s = "executed" then
        let st1 := { st with activeOrders := setA st.activeOrders orderHash { order with status := OrderStatus.EXECUTED } }
        ManagerState.stopOrderMonitoring st1 orderHash
      else if s = "cancelled" then
        let st1 := { st with activeOrders := setA st.activeOrders orderHash { order with status := OrderStatus.CANCELLED } }
        ManagerState.stopOrderMonitoring st1 orderHash
      else st

/-- One entry of the settlement service's `getReadyToAcceptSecretFills`
response; the non-index fields may be absent (the source defaults them
with `||`). -/
structure ReadyFill where
  idx : Nat
  amount : Option String
  txHash : Option String
  resolver : Option String
deriving DecidableEq, Repr

/-- The `for` loop of `processOrderFills`: for each reported fill, submit
the secret at its index (`submitOk` tells whether `submitSecret` succeeds
for that index; a failure is caught and logged, the loop continues) and on
success append an `OrderFill` record built from the response. -/
def processFillsLoop (orderHash : String) (submitOk : Nat → Bool) (now : Int) :
    ManagerState → List ReadyFill → ManagerState
  | st, [] => st
  | st, fill :: rest =>
    let st1 :=
      if submitOk fill.idx then
        match lookupA st.activeOrders orderHash with
        | none => st
        | some order =>
          let rec1 : OrderFill :=
            { idx := fill.idx,
              amount := jsOrString fill.amount "0",
              txHash := jsOrString fill.txHash "",
              timestamp := now,
              resolver := jsOrString fill.resolver "" }
          { st with activeOrders := setA st.activeOrders orderHash { order with fills := order.fills ++ [rec1] } }
      else st
    processFillsLoop orderHash submitOk now st1 rest

/-- `processOrderFills(orderHash)`.  `fillsResp` is the
`getReadyToAcceptSecretFills` response; an exception (including the normal
not-found case) leaves the state unchanged. -/
def GeneralizedFusionOrderManager.processOrderFills (st : ManagerState)
    (orderHash : String) (fillsResp : Except String (List ReadyFill))
    (submitOk : Nat → Bool) (now : Int) : ManagerState :=
  match lookupA st.orderSecrets orderHash with
  | none => st
  | some _ =>
    match fillsResp with
    | .error _ => st
    | .ok fills => processFillsLoop orderHash submitOk now st fills

/-- The environment of one monitoring tick: the two settlement-service
responses, the per-index outcome of secret submission, and the clock. -/
structure TickEnv where
  statusResp : Except String String
  fillsResp : Except String (List ReadyFill)
  submitOk : Nat → Bool
  now : Int

/-- One tick of the monitoring loop for `orderHash`: the `setInterval`
callback (status check, then fill processing) fires only while the order's
polling interval is installed. -/
def monitoringTick (st : ManagerState) (orderHash : String) (env : TickEnv) :
    ManagerState :=
  if orderHash ∈ st.pollingIntervals then
    GeneralizedFusionOrderManager.processOrderFills
      (GeneralizedFusionOrderManager.checkOrderStatus st orderHash env.statusResp)
      orderHash env.fillsResp env.submitOk env.now
  else st

/-- A sequence of monitoring ticks on one order. -/
def runTicks (orderHash : String) (envs : List TickEnv) (st : ManagerState) :
    ManagerState :=
  envs.foldl (fun s e => monitoringTick s orderHash e) st

/-- `cancelOrder(orderHash)`.  `cancelResp` is the source-chain adapter's
`cancelOrder` result; its failure is re-thrown and the state left
untouched. -/
def GeneralizedFusionOrderManager.cancelOrder (st : ManagerState) (orderHash : String)
    (cancelResp : Except String Unit) : Except String Unit × ManagerState :=
  match lookupA st.activeOrders orderHash with
  | none => (.error ("Order not found: " ++ orderHash), st)
  | some order =>
    if order.srcChain ∈ st.adapters then
      match cancelResp with
      | .error e => (.error e, st)
      | .ok _ =>
        let st1 := { st with activeOrders := setA st.activeOrders orderHash { order with status := OrderStatus.CANCELLED } }
        (.ok (), ManagerState.stopOrderMonitoring st1 orderHash)
    else (.error ("No adapter for source chain: " ++ order.srcChain.toKey), st)

/-! ## Order creation (`createOrder`) -/

/-- `QuoteParams`. -/
structure QuoteParams where
  srcChainId : ChainId
  dstChainId : ChainId
  srcTokenAddress : String
  dstTokenAddress : String
  amount : String
  walletAddress : String
deriving Repr

/-- The part of the settlement quote the manager reads: the preset's
required number of secrets. -/
structure Quote where
  secretsCount : Nat
deriving DecidableEq, Repr

/-- The settlement-service endpoints `createOrder` can invoke. -/
inductive ServiceCall where
  | getQuote
  | placeOrder
deriving DecidableEq, Repr

/-- The environment of one `createOrder` run: the settlement responses
(after the retry policy), the random source, the hash functions, and the
clock. -/
structure CreateOrderEnv where
  quoteResp : Except String Quote
  placeResp : Except String String
  rnd : Nat → String
  hashSecret : String → String
  packIdxHash : Nat → String → String
  now : Int

/-- The `UniversalOrder` record `createOrder` assembles before validation:
placeholder assets, `minReturn` of zero, a deadline one hour from now,
status `CREATED`, and the freshly generated secrets. -/
def assembleOrder (p : QuoteParams) (g : SecretsAndHashLock) (now : Int) :
    UniversalOrder :=
  { orderHash := ""
    srcChain := p.srcChainId
    dstChain := p.dstChainId
    srcAsset :=
      { chainId := p.srcChainId, address := p.srcTokenAddress,
        symbol := "SRC", decimals := 18, standard := "ERC20" }
    dstAsset :=
      { chainId := p.dstChainId, address := p.dstTokenAddress,
        symbol := "DST", decimals := 18, standard := "ERC20" }
    amount := p.amount
    minReturn := "0"
    maker := p.walletAddress
    taker := none
    deadline := now + 3600
    status := .CREATED
    fills := []
    secrets := some g.secrets
    secretHashes := some g.secretHashes
    hashLock := some g.hashLock }

/-- The validated fields of a fully assembled order. -/
def orderToParams (o : UniversalOrder) : OrderParams :=
  { srcChain := some o.srcChain, dstChain := some o.dstChain,
    srcAsset := some o.srcAsset, dstAsset := some o.dstAsset,
    amount := some o.amount, maker := some o.maker,
    deadline := some o.deadline }

/-- `createOrder(params)`: adapter-pair check, quote, secret generation,
order assembly, validation, placement, persistence, monitoring start.
Returns the result, the new state, and the list of settlement-service
endpoints invoked during the run (in order). -/
def GeneralizedFusionOrderManager.createOrder (st : ManagerState) (p : QuoteParams)
    (env : CreateOrderEnv) : Except String String × ManagerState × List ServiceCall :=
  if p.srcChainId ∈ st.adapters ∧ p.dstChainId ∈ st.adapters then
    match env.quoteResp with
    | .error e => (.error e, st, [.getQuote])
    | .ok quote =>
      let g := generateSecretsAndHashLock env.rnd env.hashSecret env.packIdxHash
        quote.secretsCount
      let order := assembleOrder p g env.now
      match validateOrderParams (orderToParams order) env.now with
      | .error e => (.error e, st, [.getQuote])
      | .ok _ =>
        match env.placeResp with
        | .error e => (.error e, st, [.getQuote, .placeOrder])
        | .ok orderHash =>
          let placed := { order with orderHash := orderHash, status := .PENDING }
          let st1 : ManagerState :=
            { st with
              activeOrders := setA st.activeOrders orderHash placed,
              orderSecrets := setA st.orderSecrets orderHash g.secrets }
          (.ok orderHash, st1.startOrderMonitoring orderHash, [.getQuote, .placeOrder])
  else
    (.error ("Unsupported chain pair: " ++ p.srcChainId.toKey ++ " → " ++
      p.dstChainId.toKey), st, [])

/-- Monitoring teardown invariant: a terminal order has no live polling
interval.  Every state reachable by the manager's operations from the
initial empty state satisfies it. -/
def ManagerState.TerminalMonitoringStopped (st : ManagerState) : Prop :=
  ∀ h o, lookupA st.activeOrders h = some o → o.status.isTerminal = true →
    h ∉ st.pollingIntervals

/-- The manager's initial state: no adapters beyond configuration, no
orders, no secrets, no polling intervals. -/
def ManagerState.initial (adapters : List ChainId) : ManagerState :=
  { adapters := adapters, activeOrders := [], orderSecrets := [],
    pollingIntervals := [] }

/-! ## Concrete instances used by counterexamples and witnesses -/

/-- A concrete asset. -/
def exAsset : UniversalAsset :=
  { chainId := .num 1, address := "0xA", symbol := "SRC", decimals := 18,
    standard := "ERC20" }

/-- A concrete pending order with one secret, used for the duplicate-fill run. -/
def c1Order : UniversalOrder :=
  { orderHash := "0xabc", srcChain := .num 1, dstChain := .num 2,
    srcAsset := exAsset, dstAsset := { exAsset with chainId := .num 2 },
    amount := "1000", minReturn := "0", maker := "0xM", taker := none,
    deadline := 9999, status := .PENDING, fills := [],
    secrets := some ["0xs0"], secretHashes := some ["0xh0"], hashLock := none }

/-- The manager state monitoring `c1Order`. -/
def c1State : ManagerState :=
  { adapters := [.num 1, .num 2], activeOrders := [("0xabc", c1Order)],
    orderSecrets := [("0xabc", ["0xs0"])], pollingIntervals := ["0xabc"] }

/-- A tick environment whose fill-readiness response reports index 0 as
ready (and whose status response reports no terminal status); the same
response is returned on consecutive ticks. -/
def c1Env : TickEnv :=
  { statusResp := .ok "pending",
    fillsResp := .ok [{ idx := 0, amount := some "500", txHash := some "0xd", resolver := some "R1" }],
    submitOk := fun _ => true, now := 1000 }

/-- The monitoring invariant maintained by the manager's operations: the
interval table has no duplicate entries and terminal orders have no live
polling interval. -/
def ManagerState.Inv (st : ManagerState) : Prop :=
  st.pollingIntervals.Nodup ∧ st.TerminalMonitoringStopped

/-- A concrete executed order used for the terminal-stability witness. -/
def c3Order : UniversalOrder :=
  { orderHash := "0xex", srcChain := .num 1, dstChain := .num 2,
    srcAsset := exAsset, dstAsset := { exAsset with chainId := .num 2 },
    amount := "1000", minReturn := "0", maker := "0xM", taker := none,
    deadline := 9999, status := .EXECUTED, fills := [],
    secrets := some ["0xs0"], secretHashes := some ["0xh0"], hashLock := none }

/-- A state holding `c3Order` with its monitoring already stopped. -/
def c3State : ManagerState :=
  { adapters := [.num 1, .num 2], activeOrders := [("0xex", c3Order)],
    orderSecrets := [("0xex", ["0xs0"])], pollingIntervals := [] }

/-- A tick environment that reports ready fills and a cancelled status;
on a stopped order it must have no effect. -/
def c3Env : TickEnv :=
  { statusResp := .ok "cancelled",
    fillsResp := .ok [{ idx := 0, amount := some "1", txHash := some "0xt", resolver := some "R" }],
    submitOk := fun _ => true, now := 2000 }

/-- A concrete pending order under monitoring, for the status-check and
cancellation witnesses. -/
def c5Order : UniversalOrder :=
  { orderHash := "0xc5", srcChain := .num 1, dstChain := .num 2,
    srcAsset := exAsset, dstAsset := { exAsset with chainId := .num 2 },
    amount := "1000", minReturn := "0", maker := "0xM", taker := none,
    deadline := 9999, status := .PENDING, fills := [],
    secrets := some ["0xs0"], secretHashes := some ["0xh0"], hashLock := none }

/-- The state monitoring `c5Order`. -/
def c5State : ManagerState :=
  { adapters := [.num 1, .num 2], activeOrders := [("0xc5", c5Order)],
    orderSecrets := [("0xc5", ["0xs0"])], pollingIntervals := ["0xc5"] }

/-- The initial manager state used for the creation counterexample run. -/
def c2State : ManagerState := ManagerState.initial [.num 1, .num 2]

/-- Creation parameters with an amount of `"0"`. -/
def c2Params : QuoteParams :=
  { srcChainId := .num 1, dstChainId := .num 2, srcTokenAddress := "0xA",
    dstTokenAddress := "0xB", amount := "0", walletAddress := "0xM" }

/-- A creation environment whose settlement service would quote and place
successfully. -/
def c2Env : CreateOrderEnv :=
  { quoteResp := .ok { secretsCount := 1 }, placeResp := .ok "0xORD",
    rnd := fun i => "0xs" ++ toString i, hashSecret := fun s => "H" ++ s,
    packIdxHash := fun i h => "P" ++ toString i ++ h, now := 1000 }

/-- Validation input whose `srcChain` is present but numerically zero and
whose other fields are present and valid. -/
def c9Params : OrderParams :=
  { srcChain := some (.num 0), dstChain := some (.num 1),
    srcAsset := some exAsset, dstAsset := some exAsset,
    amount := some "5", maker := some "0xM", deadline := some 2000 }

/-- A fully valid validation input. -/
def c9GoodParams : OrderParams :=
  { srcChain := some (.num 3), dstChain := some (.num 4),
    srcAsset := some exAsset, dstAsset := some exAsset,
    amount := some "5", maker := some "0xM", deadline := some 2000 }


/-! # Theorems -/

/-! ## Association-list lemmas -/

theorem lookupA_setA_self {β : Type} (m : List (String × β)) (k : String) (v : β) :
    lookupA (setA m k v) k = some v := by
  induction m with
  | nil => simp [setA, lookupA]
  | cons p rest ih =>
    obtain ⟨q, w⟩ := p
    by_cases hq : q = k
    · simp [setA, lookupA, hq]
    · simp [setA, lookupA, hq, ih]

theorem lookupA_setA_ne {β : Type} (m : List (String × β)) (k q : String) (v : β)
    (h : k ≠ q) : lookupA (setA m k v) q = lookupA m q := by
  induction m with
  | nil => simp [setA, lookupA, h]
  | cons p rest ih =>
    obtain ⟨r, w⟩ := p
    by_cases hr : r = k
    · subst hr
      simp [setA, lookupA, h]
    · simp [setA, lookupA, hr, ih]

/-! ## Retry policy lemmas -/

theorem retryGo_all_fail {ε α : Type} (op : Nat → Except ε α) :
    ∀ (n i : Nat) (last : Option ε) (e : ε), 1 ≤ n →
      (∀ j, j < n → ∃ ej, op (i + j) = .error ej) →
      op (i + (n - 1)) = .error e →
      retryGo op i n last = (.err e, n) := by
  intro n
  induction n with
  | zero => intro i last e h; omega
  | succ m ih =>
    intro i last e _ hall hlast
    obtain ⟨e0, he0⟩ := hall 0 (Nat.succ_pos m)
    simp only [Nat.add_zero] at he0
    by_cases hm : m = 0
    · subst hm
      simp only [Nat.sub_self, Nat.add_zero] at hlast
      rw [he0] at hlast
      injection hlast with he
      subst he
      simp [retryGo, he0]
    · have hm1 : 1 ≤ m := Nat.one_le_iff_ne_zero.mpr hm
      have hall1 : ∀ j, j < m → ∃ ej, op (i + 1 + j) = .error ej := by
        intro j hj
        obtain ⟨ej, hej⟩ := hall (j + 1) (by omega)
        exact ⟨ej, by rw [show i + 1 + j = i + (j + 1) by omega]; exact hej⟩
      have hlast1 : op (i + 1 + (m - 1)) = .error e := by
        rw [show i + 1 + (m - 1) = i + (m + 1 - 1) by omega]
        exact hlast
      have := ih (i + 1) (some e0) e hm1 hall1 hlast1
      simp [retryGo, he0, this]

/-- C4: an operation failing on the first two attempts and succeeding on
the third returns the success under `retry` with `maxRetries = 3`, after
exactly 3 invocations; an operation failing on every attempt is invoked
exactly `maxRetries` times and the error of the final attempt is raised. -/
theorem retry_success_on_third_attempt_and_exhaustion :
    (∀ (ε α : Type) (op : Nat → Except ε α) (e0 e1 : ε) (a : α),
      op 0 = .error e0 → op 1 = .error e1 → op 2 = .ok a →
      retry op 3 = (.ok a, 3)) ∧
    (∀ (ε α : Type) (op : Nat → Except ε α) (n : Nat) (e : ε),
      1 ≤ n → (∀ j, j < n → ∃ ej, op j = .error ej) → op (n - 1) = .error e →
      retry op n = (.err e, n)) := by
  constructor
  · intro ε α op e0 e1 a h0 h1 h2
    simp [retry, retryGo, h0, h1, h2]
  · intro ε α op n e hn hall hlast
    have hall0 : ∀ j, j < n → ∃ ej, op (0 + j) = .error ej := by
      intro j hj
      simpa using hall j hj
    have hlast0 : op (0 + (n - 1)) = .error e := by simpa using hlast
    exact retryGo_all_fail op n 0 none e hn hall0 hlast0

/-- Witness for C4: a concrete operation failing twice then succeeding,
and a concrete operation failing on all of 2 attempts. -/
theorem retry_success_on_third_attempt_and_exhaustion_witness :
    retry (fun i => if i < 2 then Except.error "boom" else Except.ok 7) 3 =
      (RetryOutcome.ok 7, 3) ∧
    retry (fun _ => (Except.error "down" : Except String Nat)) 2 =
      (RetryOutcome.err "down", 2) := by
  constructor
  · exact retry_success_on_third_attempt_and_exhaustion.1 String Nat
      (fun i => if i < 2 then Except.error "boom" else Except.ok 7)
      "boom" "boom" 7 rfl rfl rfl
  · exact retry_success_on_third_attempt_and_exhaustion.2 String Nat
      (fun _ => Except.error "down") 2 "down" (by omega)
      (fun j _ => ⟨"down", rfl⟩) rfl

/-! ## Adapter registry lemmas -/

theorem updateFn_self {β : Type} (f : String → Option β) (k : String) (v : Option β) :
    updateFn f k v k = v := by
  simp [updateFn]

theorem updateFn_ne {β : Type} (f : String → Option β) (k q : String) (v : Option β)
    (h : q ≠ k) : updateFn f k v q = f q := by
  simp [updateFn, h]

/-- `registerAdapter` keeps the allocation counter well formed. -/
theorem tagsFresh_registerAdapter (st : ChainAdapterFactory) (chainId : ChainId)
    (cls : String) (h : st.TagsFresh) :
    (st.registerAdapter chainId cls).TagsFresh := by
  intro k a hk
  simp only [ChainAdapterFactory.registerAdapter] at hk
  by_cases hq : k = chainId.toKey
  · subst hq
    rw [updateFn_self] at hk
    exact absurd hk (by simp)
  · rw [updateFn_ne _ _ _ _ hq] at hk
    exact h k a hk

/-- `createAdapter` keeps the allocation counter well formed. -/
theorem tagsFresh_createAdapter (st : ChainAdapterFactory) (chainId : ChainId)
    (a : ChainAdapter) (st2 : ChainAdapterFactory) (h : st.TagsFresh)
    (hc : st.createAdapter chainId = .ok (a, st2)) : st2.TagsFresh := by
  simp only [ChainAdapterFactory.createAdapter] at hc
  cases hinst : st.instances chainId.toKey with
  | some inst =>
    rw [hinst] at hc
    injection hc with hc
    injection hc with h1 h2
    subst h2
    exact h
  | none =>
    rw [hinst] at hc
    cases hcls : st.adapters chainId.toKey with
    | none => rw [hcls] at hc; exact absurd hc (by simp)
    | some cls =>
      rw [hcls] at hc
      injection hc with hc
      injection hc with h1 h2
      subst h2
      intro k b hk
      by_cases hq : k = chainId.toKey
      · subst hq
        simp only [updateFn_self] at hk
        injection hk with hk
        subst hk
        subst h1
        simp
      · simp only at hk
        rw [updateFn_ne _ _ _ _ hq] at hk
        have := h k b hk
        simp only
        omega

/-- A second `createAdapter` call after a successful one returns the cached
instance unchanged. -/
theorem createAdapter_cached_stable (st : ChainAdapterFactory) (chainId : ChainId)
    (a : ChainAdapter) (st1 : ChainAdapterFactory)
    (h : st.createAdapter chainId = .ok (a, st1)) :
    st1.createAdapter chainId = .ok (a, st1) := by
  simp only [ChainAdapterFactory.createAdapter] at h ⊢
  cases hinst : st.instances chainId.toKey with
  | some inst =>
    rw [hinst] at h
    injection h with h
    injection h with h1 h2
    subst h1; subst h2
    rw [hinst]
  | none =>
    rw [hinst] at h
    cases hcls : st.adapters chainId.toKey with
    | none => rw [hcls] at h; exact absurd h (by simp)
    | some cls =>
      rw [hcls] at h
      injection h with h
      injection h with h1 h2
      subst h1; subst h2
      simp [updateFn_self]

/-- C7: `createAdapter` returns the identical cached instance on a repeated
call; `registerAdapter` on a cached id invalidates the cache so the next
`createAdapter` constructs a fresh (distinct) instance; `createAdapter` on
an unregistered id fails with the unsupported-chain error. -/
theorem createAdapter_caching_and_invalidation :
    (∀ (st : ChainAdapterFactory) (chainId : ChainId) (a : ChainAdapter)
       (st1 : ChainAdapterFactory),
      st.createAdapter chainId = .ok (a, st1) →
      st1.createAdapter chainId = .ok (a, st1)) ∧
    (∀ (st : ChainAdapterFactory) (chainId : ChainId) (cls : String)
       (a : ChainAdapter),
      st.TagsFresh → st.instances chainId.toKey = some a →
      ∃ st2, (st.registerAdapter chainId cls).createAdapter chainId =
          .ok ({ cls := cls, tag := st.nextTag }, st2) ∧
        ({ cls := cls, tag := st.nextTag } : ChainAdapter) ≠ a) ∧
    (∀ (st : ChainAdapterFactory) (chainId : ChainId),
      st.instances chainId.toKey = none → st.adapters chainId.toKey = none →
      st.createAdapter chainId =
        .error ("No adapter registered for chain ID: " ++ chainId.toKey)) := by
  refine ⟨createAdapter_cached_stable, ?_, ?_⟩
  · intro st chainId cls a hfresh hcached
    have htag : a.tag < st.nextTag := hfresh _ _ hcached
    refine ⟨?_, ?_, ?_⟩
    · exact { adapters := updateFn st.adapters chainId.toKey (some cls),
              instances := updateFn (updateFn st.instances chainId.toKey none)
                chainId.toKey (some { cls := cls, tag := st.nextTag }),
              nextTag := st.nextTag + 1 }
    · simp [ChainAdapterFactory.createAdapter, ChainAdapterFactory.registerAdapter,
        updateFn_self]
    · intro hcontra
      have : ({ cls := cls, tag := st.nextTag } : ChainAdapter).tag = a.tag := by
        rw [hcontra]
      simp only at this
      omega
  · intro st chainId hinst hcls
    simp [ChainAdapterFactory.createAdapter, hinst, hcls]

/-- A concrete registry with one registered factory and no cached instances. -/
def c7Factory : ChainAdapterFactory :=
  { adapters := updateFn (fun _ => none) "137" (some "EVMChainAdapter"),
    instances := fun _ => none,
    nextTag := 0 }

/-- `c7Factory` after its first `createAdapter` call for chain `137`. -/
def c7FactoryCached : ChainAdapterFactory :=
  { adapters := c7Factory.adapters,
    instances := updateFn c7Factory.instances "137"
      (some { cls := "EVMChainAdapter", tag := 0 }),
    nextTag := 1 }

/-- Witness for C7: on a concrete registry, the second `createAdapter` call
for chain 137 returns the instance cached by the first call; after
`registerAdapter` the next call constructs a distinct instance; an
unregistered chain id fails. -/
theorem createAdapter_caching_and_invalidation_witness :
    (ChainAdapterFactory.createAdapter c7FactoryCached (.num 137) =
      .ok ({ cls := "EVMChainAdapter", tag := 0 }, c7FactoryCached)) ∧
    (∃ st2, ChainAdapterFactory.createAdapter
        (ChainAdapterFactory.registerAdapter c7FactoryCached (.num 137)
          "MockAdapter") (.num 137) =
        .ok ({ cls := "MockAdapter", tag := 1 }, st2) ∧
      ({ cls := "MockAdapter", tag := 1 } : ChainAdapter) ≠
        { cls := "EVMChainAdapter", tag := 0 }) ∧
    (ChainAdapterFactory.createAdapter c7Factory (.str "aptos-mainnet") =
      .error ("No adapter registered for chain ID: " ++ "aptos-mainnet")) := by
  refine ⟨?_, ?_, ?_⟩
  · exact createAdapter_caching_and_invalidation.1 c7Factory (.num 137)
      { cls := "EVMChainAdapter", tag := 0 } c7FactoryCached rfl
  · exact createAdapter_caching_and_invalidation.2.1 c7FactoryCached (.num 137)
      "MockAdapter" { cls := "EVMChainAdapter", tag := 0 }
      (by intro k a hk
          simp only [c7FactoryCached, updateFn, c7Factory] at hk ⊢
          by_cases hq : k = "137"
          · subst hq
            simp only [if_pos rfl] at hk
            injection hk with hk
            subst hk
            simp
          · simp [hq] at hk)
      (by decide)
  · exact createAdapter_caching_and_invalidation.2.2 c7Factory (.str "aptos-mainnet")
      rfl (by simp [c7Factory, updateFn, ChainId.toKey])

/-- C10: the registry canonicalizes chain identifiers by string conversion:
a numeric id and its string form address the same registration and cache
slot, for both `createAdapter` and `registerAdapter`. -/
theorem chainId_string_number_canonicalization :
    ∀ (st : ChainAdapterFactory) (n : Nat) (cls : String),
      st.createAdapter (.num n) = st.createAdapter (.str (toString n)) ∧
      st.registerAdapter (.num n) cls = st.registerAdapter (.str (toString n)) cls := by
  intro st n cls
  exact ⟨rfl, rfl⟩

/-! ## HashLock engine lemmas -/

theorem mapIdx_map_range {β γ : Type} (f : Nat → β → γ) (g : Nat → β) :
    ∀ n, ((List.range n).map g).mapIdx (fun i h => f i h) =
      (List.range n).map (fun i => f i (g i)) := by
  intro n
  induction n with
  | zero => simp
  | succ m ih =>
    rw [List.range_succ, List.map_append, List.map_append]
    simp only [List.map_cons, List.map_nil]
    rw [List.mapIdx_append_one, ih]
    simp

/-- C8: for `secretsCount ≥ 1`, `generateSecretsAndHashLock` returns
`secretsCount` secrets and `secretsCount` hashes, the hash at each index
being the hash of the secret at that index; with one secret the commitment
is the single-fill form over that secret, with more it is the multi-fill
form over the `(fillIndex, secretHash)` pairs for every index. -/
theorem generateSecretsAndHashLock_spec :
    ∀ (rnd : Nat → String) (hashSecret : String → String)
      (packIdxHash : Nat → String → String) (n : Nat), 1 ≤ n →
      (generateSecretsAndHashLock rnd hashSecret packIdxHash n).secrets.length = n ∧
      (generateSecretsAndHashLock rnd hashSecret packIdxHash n).secretHashes.length = n ∧
      (∀ i : Nat, (generateSecretsAndHashLock rnd hashSecret packIdxHash n).secretHashes[i]? =
        ((generateSecretsAndHashLock rnd hashSecret packIdxHash n).secrets[i]?).map
          hashSecret) ∧
      (n = 1 →
        (generateSecretsAndHashLock rnd hashSecret packIdxHash n).secrets = [rnd 0] ∧
        (generateSecretsAndHashLock rnd hashSecret packIdxHash n).hashLock =
          HashLock.forSingleFill (rnd 0)) ∧
      (1 < n →
        (generateSecretsAndHashLock rnd hashSecret packIdxHash n).hashLock =
          HashLock.forMultipleFills ((List.range n).map
            (fun i => packIdxHash i (hashSecret (rnd i))))) := by
  intro rnd hashSecret packIdxHash n hn
  refine ⟨?_, ?_, ?_, ?_, ?_⟩
  · simp [generateSecretsAndHashLock]
  · simp [generateSecretsAndHashLock]
  · intro i
    simp [generateSecretsAndHashLock, List.getElem?_map]
  · intro h1
    subst h1
    simp [generateSecretsAndHashLock, List.range_succ]
  · intro h2
    have hne : n ≠ 1 := by omega
    simp only [generateSecretsAndHashLock, if_neg hne]
    rw [List.map_map]
    have := mapIdx_map_range packIdxHash (fun i => hashSecret (rnd i)) n
    exact congrArg HashLock.forMultipleFills this

/-- Witness for C8: a concrete run with three secrets. -/
theorem generateSecretsAndHashLock_spec_witness :
    (generateSecretsAndHashLock (fun i => "s" ++ toString i) (fun s => "H" ++ s)
      (fun i h => "P" ++ toString i ++ h) 3).secrets.length = 3 ∧
    (generateSecretsAndHashLock (fun i => "s" ++ toString i) (fun s => "H" ++ s)
      (fun i h => "P" ++ toString i ++ h) 3).hashLock =
      HashLock.forMultipleFills ((List.range 3).map
        (fun i => "P" ++ toString i ++ ("H" ++ ("s" ++ toString i)))) := by
  have h := generateSecretsAndHashLock_spec (fun i => "s" ++ toString i)
    (fun s => "H" ++ s) (fun i h => "P" ++ toString i ++ h) 3 (by omega)
  exact ⟨h.1, h.2.2.2.2 (by omega)⟩

/-! ## Monitoring-loop lemmas -/

theorem processFillsLoop_pollingIntervals (orderHash : String) (submitOk : Nat → Bool)
    (now : Int) :
    ∀ (fills : List ReadyFill) (st : ManagerState),
      (processFillsLoop orderHash submitOk now st fills).pollingIntervals =
        st.pollingIntervals := by
  intro fills
  induction fills with
  | nil => intro st; rfl
  | cons fill rest ih =>
    intro st
    rw [processFillsLoop, ih]
    by_cases hs : submitOk fill.idx
    · simp only [hs, if_true]
      cases lookupA st.activeOrders orderHash <;> rfl
    · simp [hs]

theorem processFillsLoop_statuses (orderHash : String) (submitOk : Nat → Bool)
    (now : Int) :
    ∀ (fills : List ReadyFill) (st : ManagerState) (k : String),
      (lookupA (processFillsLoop orderHash submitOk now st fills).activeOrders k).map
          (fun o => o.status) =
        (lookupA st.activeOrders k).map (fun o => o.status) := by
  intro fills
  induction fills with
  | nil => intro st k; rfl
  | cons fill rest ih =>
    intro st k
    rw [processFillsLoop, ih]
    by_cases hs : submitOk fill.idx
    · simp only [hs, if_true]
      cases horder : lookupA st.activeOrders orderHash with
      | none => rfl
      | some order =>
        by_cases hk : orderHash = k
        · subst hk
          simp [lookupA_setA_self, horder]
        · simp [lookupA_setA_ne _ _ _ _ hk]
    · simp [hs]

theorem processOrderFills_pollingIntervals (st : ManagerState) (orderHash : String)
    (fillsResp : Except String (List ReadyFill)) (submitOk : Nat → Bool) (now : Int) :
    (GeneralizedFusionOrderManager.processOrderFills st orderHash fillsResp submitOk
      now).pollingIntervals = st.pollingIntervals := by
  unfold GeneralizedFusionOrderManager.processOrderFills
  cases lookupA st.orderSecrets orderHash with
  | none => rfl
  | some s =>
    cases fillsResp with
    | error e => rfl
    | ok fills => exact processFillsLoop_pollingIntervals orderHash submitOk now fills st

theorem processOrderFills_statuses (st : ManagerState) (orderHash : String)
    (fillsResp : Except String (List ReadyFill)) (submitOk : Nat → Bool) (now : Int)
    (k : String) :
    (lookupA (GeneralizedFusionOrderManager.processOrderFills st orderHash fillsResp
        submitOk now).activeOrders k).map (fun o => o.status) =
      (lookupA st.activeOrders k).map (fun o => o.status) := by
  unfold GeneralizedFusionOrderManager.processOrderFills
  cases lookupA st.orderSecrets orderHash with
  | none => rfl
  | some s =>
    cases fillsResp with
    | error e => rfl
    | ok fills => exact processFillsLoop_statuses orderHash submitOk now fills st k

theorem inv_processOrderFills (st : ManagerState) (orderHash : String)
    (fillsResp : Except String (List ReadyFill)) (submitOk : Nat → Bool) (now : Int)
    (h : st.Inv) :
    (GeneralizedFusionOrderManager.processOrderFills st orderHash fillsResp submitOk
      now).Inv := by
  obtain ⟨hnd, htms⟩ := h
  constructor
  · rw [processOrderFills_pollingIntervals]; exact hnd
  · intro k o hk hterm
    rw [processOrderFills_pollingIntervals]
    have hst := processOrderFills_statuses st orderHash fillsResp submitOk now k
    rw [hk] at hst
    cases horig : lookupA st.activeOrders k with
    | none => rw [horig] at hst; exact absurd hst (by simp)
    | some o0 =>
      rw [horig] at hst
      simp at hst
      rw [hst] at hterm
      exact htms k o0 horig hterm

/-- Writing an order record and stopping its monitoring preserves the
monitoring invariant (used by the status check and by cancellation). -/
theorem inv_set_and_stop (st : ManagerState) (k : String) (o : UniversalOrder)
    (h : st.Inv) :
    (ManagerState.stopOrderMonitoring
      { st with activeOrders := setA st.activeOrders k o } k).Inv := by
  obtain ⟨hnd, htms⟩ := h
  refine ⟨hnd.erase _, ?_⟩
  intro q o2 hq hterm
  by_cases hqk : k = q
  · subst hqk
    exact hnd.not_mem_erase
  · have hq2 : lookupA st.activeOrders q = some o2 := by
      rw [← lookupA_setA_ne st.activeOrders k q o hqk]
      exact hq
    intro hmem
    exact htms q o2 hq2 hterm (List.mem_of_mem_erase hmem)

/-- Persisting a non-terminal order and starting its monitoring preserves
the monitoring invariant (used by order creation). -/
theorem inv_persist_and_start (st : ManagerState) (k : String) (o : UniversalOrder)
    (secrets : List String) (hterm : o.status.isTerminal = false) (h : st.Inv) :
    (ManagerState.startOrderMonitoring
      { st with activeOrders := setA st.activeOrders k o,
                orderSecrets := setA st.orderSecrets k secrets } k).Inv := by
  obtain ⟨hnd, htms⟩ := h
  unfold ManagerState.startOrderMonitoring
  split
  · refine ⟨hnd, ?_⟩
    intro q o2 hq hterm2
    by_cases hqk : k = q
    · subst hqk
      have ho : some o = some o2 := by
        rw [← lookupA_setA_self st.activeOrders k o]
        exact hq
      injection ho with ho
      rw [← ho] at hterm2
      rw [hterm] at hterm2
      exact absurd hterm2 (by simp)
    · have hq2 : lookupA st.activeOrders q = some o2 := by
        rw [← lookupA_setA_ne st.activeOrders k q o hqk]
        exact hq
      exact htms q o2 hq2 hterm2
  · next hmem =>
    have hmem2 : k ∉ st.pollingIntervals := hmem
    refine ⟨by simp [List.nodup_append, hnd, hmem2], ?_⟩
    intro q o2 hq hterm2
    by_cases hqk : k = q
    · subst hqk
      have ho : some o = some o2 := by
        rw [← lookupA_setA_self st.activeOrders k o]
        exact hq
      injection ho with ho
      rw [← ho] at hterm2
      rw [hterm] at hterm2
      exact absurd hterm2 (by simp)
    · have hq2 : lookupA st.activeOrders q = some o2 := by
        rw [← lookupA_setA_ne st.activeOrders k q o hqk]
        exact hq
      have hnot := htms q o2 hq2 hterm2
      intro hcon
      rcases List.mem_append.mp hcon with hcon | hcon
      · exact hnot hcon
      · exact hqk (List.mem_singleton.mp hcon).symm

theorem inv_checkOrderStatus (st : ManagerState) (orderHash : String)
    (statusResp : Except String String) (h : st.Inv) :
    (GeneralizedFusionOrderManager.checkOrderStatus st orderHash statusResp).Inv := by
  unfold GeneralizedFusionOrderManager.checkOrderStatus
  split
  · exact h
  · split
    · exact h
    · split
      · exact inv_set_and_stop st orderHash _ h
      · split
        · exact inv_set_and_stop st orderHash _ h
        · exact h

theorem inv_monitoringTick (st : ManagerState) (orderHash : String) (env : TickEnv)
    (h : st.Inv) : (monitoringTick st orderHash env).Inv := by
  unfold monitoringTick
  split
  · exact inv_processOrderFills _ _ _ _ _ (inv_checkOrderStatus st orderHash env.statusResp h)
  · exact h

theorem inv_cancelOrder (st : ManagerState) (orderHash : String)
    (cancelResp : Except String Unit) (h : st.Inv) :
    ((GeneralizedFusionOrderManager.cancelOrder st orderHash cancelResp).2).Inv := by
  unfold GeneralizedFusionOrderManager.cancelOrder
  split
  · exact h
  · split
    · split
      · exact h
      · exact inv_set_and_stop st orderHash _ h
    · exact h

theorem inv_createOrder (st : ManagerState) (p : QuoteParams) (env : CreateOrderEnv)
    (h : st.Inv) :
    ((GeneralizedFusionOrderManager.createOrder st p env).2.1).Inv := by
  unfold GeneralizedFusionOrderManager.createOrder
  dsimp only
  repeat' split
  all_goals first
    | exact h
    | (refine inv_persist_and_start st _ _ _ ?_ h; rfl)

/-- C3: the monitoring invariant (terminal orders have no live polling
interval) holds initially and is preserved by every manager operation, and
under it a terminal order is untouched by any further sequence of
monitoring ticks: no Fill record is appended and the status never leaves
the terminal value (the whole state is unchanged). -/
theorem terminal_state_stability :
    (∀ adapters, (ManagerState.initial adapters).Inv) ∧
    (∀ (st : ManagerState) (orderHash : String) (env : TickEnv),
      st.Inv → (monitoringTick st orderHash env).Inv) ∧
    (∀ (st : ManagerState) (orderHash : String) (cancelResp : Except String Unit),
      st.Inv → ((GeneralizedFusionOrderManager.cancelOrder st orderHash cancelResp).2).Inv) ∧
    (∀ (st : ManagerState) (p : QuoteParams) (env : CreateOrderEnv),
      st.Inv → ((GeneralizedFusionOrderManager.createOrder st p env).2.1).Inv) ∧
    (∀ (st : ManagerState) (orderHash : String) (o : UniversalOrder)
       (envs : List TickEnv),
      st.Inv → lookupA st.activeOrders orderHash = some o →
      o.status.isTerminal = true → runTicks orderHash envs st = st) := by
  refine ⟨?_, inv_monitoringTick, inv_cancelOrder, inv_createOrder, ?_⟩
  · intro adapters
    refine ⟨List.nodup_nil, ?_⟩
    intro h o hk hterm
    simp [ManagerState.initial, lookupA] at hk
  · intro st orderHash o envs hinv hlook hterm
    have hstop : orderHash ∉ st.pollingIntervals := hinv.2 orderHash o hlook hterm
    induction envs with
    | nil => rfl
    | cons e rest ih =>
      have h1 : monitoringTick st orderHash e = st := by
        unfold monitoringTick
        rw [if_neg hstop]
      unfold runTicks
      rw [List.foldl_cons, h1]
      exact ih

/-- Witness for C3: on a concrete executed order whose monitoring is
stopped, running two further ticks (with an environment that reports ready
fills and a conflicting status) leaves the state unchanged. -/
theorem terminal_state_stability_witness :
    runTicks "0xex" [c3Env, c3Env] c3State = c3State := by
  refine terminal_state_stability.2.2.2.2 c3State "0xex" c3Order [c3Env, c3Env]
    ⟨by decide, ?_⟩ (by decide) (by decide)
  intro h o hk hterm
  simp [c3State]

/-- C5: during a tick's status check on a stored order, a reported
`executed` status sets the order to EXECUTED and removes its polling
interval; a reported `cancelled` status sets CANCELLED and removes the
interval; any other reported status leaves the whole state (status and
monitoring) unchanged. -/
theorem checkOrderStatus_transitions :
    ∀ (st : ManagerState) (orderHash : String) (o : UniversalOrder),
      lookupA st.activeOrders orderHash = some o →
      (lookupA (GeneralizedFusionOrderManager.checkOrderStatus st orderHash
          (.ok "executed")).activeOrders orderHash =
            some { o with status := .EXECUTED } ∧
        (st.pollingIntervals.Nodup →
          orderHash ∉ (GeneralizedFusionOrderManager.checkOrderStatus st orderHash
            (.ok "executed")).pollingIntervals)) ∧
      (lookupA (GeneralizedFusionOrderManager.checkOrderStatus st orderHash
          (.ok "cancelled")).activeOrders orderHash =
            some { o with status := .CANCELLED } ∧
        (st.pollingIntervals.Nodup →
          orderHash ∉ (GeneralizedFusionOrderManager.checkOrderStatus st orderHash
            (.ok "cancelled")).pollingIntervals)) ∧
      (∀ s, s ≠ "executed" → s ≠ "cancelled" →
        GeneralizedFusionOrderManager.checkOrderStatus st orderHash (.ok s) = st) := by
  intro st orderHash o hlook
  refine ⟨⟨?_, ?_⟩, ⟨?_, ?_⟩, ?_⟩
  · unfold GeneralizedFusionOrderManager.checkOrderStatus
    rw [hlook]
    simp only [if_pos rfl]
    exact lookupA_setA_self _ _ _
  · intro hnd
    unfold GeneralizedFusionOrderManager.checkOrderStatus
    rw [hlook]
    simp only [if_pos rfl]
    exact hnd.not_mem_erase
  · unfold GeneralizedFusionOrderManager.checkOrderStatus
    rw [hlook]
    dsimp only
    rw [if_neg (by decide), if_pos rfl]
    exact lookupA_setA_self _ _ _
  · intro hnd
    unfold GeneralizedFusionOrderManager.checkOrderStatus
    rw [hlook]
    dsimp only
    rw [if_neg (by decide), if_pos rfl]
    exact hnd.not_mem_erase
  · intro s hs1 hs2
    unfold GeneralizedFusionOrderManager.checkOrderStatus
    rw [hlook]
    dsimp only
    rw [if_neg hs1, if_neg hs2]

/-- Witness for C5: on the concrete monitored pending order, an `executed`
response sets EXECUTED and stops monitoring, and a `pending` response
changes nothing. -/
theorem checkOrderStatus_transitions_witness :
    (lookupA (GeneralizedFusionOrderManager.checkOrderStatus c5State "0xc5"
        (.ok "executed")).activeOrders "0xc5" =
      some { c5Order with status := .EXECUTED }) ∧
    ("0xc5" ∉ (GeneralizedFusionOrderManager.checkOrderStatus c5State "0xc5"
        (.ok "executed")).pollingIntervals) ∧
    (GeneralizedFusionOrderManager.checkOrderStatus c5State "0xc5" (.ok "pending") =
      c5State) := by
  have h := checkOrderStatus_transitions c5State "0xc5" c5Order (by decide)
  exact ⟨h.1.1, h.1.2 (by decide), h.2.2 "pending" (by decide) (by decide)⟩

/-- C6: `cancelOrder` on an unknown id fails with the order-not-found
error and leaves the state unchanged; on a stored order with a source
adapter, a successful adapter cancellation sets the order to CANCELLED and
removes its polling interval, while a failed one re-raises the adapter's
error and leaves the state unchanged. -/
theorem cancelOrder_spec :
    (∀ (st : ManagerState) (orderHash : String) (cancelResp : Except String Unit),
      lookupA st.activeOrders orderHash = none →
      GeneralizedFusionOrderManager.cancelOrder st orderHash cancelResp =
        (.error ("Order not found: " ++ orderHash), st)) ∧
    (∀ (st : ManagerState) (orderHash : String) (o : UniversalOrder),
      lookupA st.activeOrders orderHash = some o → o.srcChain ∈ st.adapters →
      (GeneralizedFusionOrderManager.cancelOrder st orderHash (.ok ())).1 = .ok () ∧
      lookupA ((GeneralizedFusionOrderManager.cancelOrder st orderHash
          (.ok ())).2).activeOrders orderHash = some { o with status := .CANCELLED } ∧
      (st.pollingIntervals.Nodup →
        orderHash ∉ ((GeneralizedFusionOrderManager.cancelOrder st orderHash
          (.ok ())).2).pollingIntervals)) ∧
    (∀ (st : ManagerState) (orderHash : String) (o : UniversalOrder) (e : String),
      lookupA st.activeOrders orderHash = some o → o.srcChain ∈ st.adapters →
      GeneralizedFusionOrderManager.cancelOrder st orderHash (.error e) =
        (.error e, st)) := by
  refine ⟨?_, ?_, ?_⟩
  · intro st orderHash cancelResp hlook
    unfold GeneralizedFusionOrderManager.cancelOrder
    rw [hlook]
  · intro st orderHash o hlook hada
    unfold GeneralizedFusionOrderManager.cancelOrder
    rw [hlook]
    dsimp only
    rw [if_pos hada]
    refine ⟨rfl, lookupA_setA_self _ _ _, ?_⟩
    intro hnd
    exact hnd.not_mem_erase
  · intro st orderHash o e hlook hada
    unfold GeneralizedFusionOrderManager.cancelOrder
    rw [hlook]
    dsimp only
    rw [if_pos hada]

/-- Witness for C6: on concrete states, an unknown id fails with the
not-found error; a successful adapter cancellation cancels the stored
order and stops its monitoring; a failing adapter cancellation propagates
its error unchanged. -/
theorem cancelOrder_spec_witness :
    (GeneralizedFusionOrderManager.cancelOrder c2State "0xmissing" (.ok ()) =
      (.error ("Order not found: " ++ "0xmissing"), c2State)) ∧
    ((GeneralizedFusionOrderManager.cancelOrder c5State "0xc5" (.ok ())).1 = .ok ()) ∧
    (lookupA ((GeneralizedFusionOrderManager.cancelOrder c5State "0xc5"
        (.ok ())).2).activeOrders "0xc5" = some { c5Order with status := .CANCELLED }) ∧
    ("0xc5" ∉ ((GeneralizedFusionOrderManager.cancelOrder c5State "0xc5"
        (.ok ())).2).pollingIntervals) ∧
    (GeneralizedFusionOrderManager.cancelOrder c5State "0xc5" (.error "rpc down") =
      (.error "rpc down", c5State)) := by
  have h1 := cancelOrder_spec.1 c2State "0xmissing" (.ok ()) (by decide)
  have h2 := cancelOrder_spec.2.1 c5State "0xc5" c5Order (by decide) (by decide)
  have h3 := cancelOrder_spec.2.2 c5State "0xc5" c5Order "rpc down" (by decide) (by decide)
  exact ⟨h1, h2.1, h2.2.1, h2.2.2 (by decide), h3⟩

/-- C1: the code violates the claimed idempotence — on an order whose
fill-readiness response reports index 0 as ready in two consecutive
monitoring ticks, the order's Fill sequence afterwards contains *two*
records with index 0, not exactly one: `processOrderFills` performs no
Fill-sequence membership check before submitting and appending, so a tick
does not preserve pairwise-distinct fill indices. -/
theorem duplicate_fill_recorded_on_repeated_ready_index :
    ((lookupA (monitoringTick (monitoringTick c1State "0xabc" c1Env) "0xabc"
        c1Env).activeOrders "0xabc").map (fun o => o.fills.map (fun f => f.idx))) =
      some [0, 0] ∧
    ¬ (((lookupA (monitoringTick (monitoringTick c1State "0xabc" c1Env) "0xabc"
        c1Env).activeOrders "0xabc").map
          (fun o => (o.fills.filter (fun f => f.idx == 0)).length)) = some 1) := by
  constructor
  · rfl
  · intro hcontra
    rw [show ((lookupA (monitoringTick (monitoringTick c1State "0xabc" c1Env) "0xabc"
        c1Env).activeOrders "0xabc").map
          (fun o => (o.fills.filter (fun f => f.idx == 0)).length)) = some 2 from rfl]
          at hcontra
    simp at hcontra

/-- C2: REFUTED on the code — `createOrder` with an amount of `"0"` does
fail with the invalid-order error, but only *after* the settlement service
has been invoked: the quote endpoint is called before validation, so the
settlement service receives one invocation, not zero. -/
theorem createOrder_zero_amount_invokes_quote :
    (GeneralizedFusionOrderManager.createOrder c2State c2Params c2Env).1 =
      .error "Amount must be positive" ∧
    (GeneralizedFusionOrderManager.createOrder c2State c2Params c2Env).2.2 =
      [ServiceCall.getQuote] ∧
    (GeneralizedFusionOrderManager.createOrder c2State c2Params c2Env).2.2 ≠ [] := by
  refine ⟨rfl, rfl, ?_⟩
  intro hcontra
  rw [show (GeneralizedFusionOrderManager.createOrder c2State c2Params c2Env).2.2 =
      [ServiceCall.getQuote] from rfl] at hcontra
  exact List.noConfusion hcontra

/-- C2 (amended): `createOrder` with a non-positive amount fails with the
invalid-order error before any *placement* call — the state is unchanged
and the settlement service receives exactly the one quote invocation that
precedes validation; and the past-deadline failure can never occur in
`createOrder`, because the assembled order's deadline is always one hour
after the current time. -/
theorem createOrder_nonpositive_amount_fails_before_placement :
    (∀ (st : ManagerState) (p : QuoteParams) (env : CreateOrderEnv) (q : Quote) (a : Int),
      p.srcChainId ∈ st.adapters → p.dstChainId ∈ st.adapters →
      env.quoteResp = .ok q →
      jsTruthyChain (some p.srcChainId) = true →
      jsTruthyChain (some p.dstChainId) = true →
      p.amount ≠ "" → p.walletAddress ≠ "" → env.now + 3600 ≠ 0 →
      jsBigIntOfString p.amount = some a → a ≤ 0 →
      GeneralizedFusionOrderManager.createOrder st p env =
        (.error "Amount must be positive", st, [ServiceCall.getQuote])) ∧
    (∀ (o : OrderParams) (now : Int), o.deadline = some (now + 3600) →
      validateOrderParams o now ≠ .error "Deadline must be in the future") := by
  constructor
  · intro st p env q a h1 h2 hq hsrcT hdstT hA hW hD hparse hle
    have hamt : jsTruthyString (some p.amount) = true := by simp [jsTruthyString, hA]
    have hmk : jsTruthyString (some p.walletAddress) = true := by
      simp [jsTruthyString, hW]
    have hdl : jsTruthyInt (some (env.now + 3600)) = true := by simp [jsTruthyInt, hD]
    have hval : ∀ g, validateOrderParams (orderToParams (assembleOrder p g env.now))
        env.now = .error "Amount must be positive" := by
      intro g
      simp only [validateOrderParams, orderToParams, assembleOrder, jsTruthyAsset,
        hsrcT, hdstT, hamt, hmk, hdl, Bool.not_true, Bool.false_eq_true, if_false,
        Option.getD_some]
      rw [hparse]
      dsimp only
      rw [if_pos hle]
    unfold GeneralizedFusionOrderManager.createOrder
    rw [if_pos ⟨h1, h2⟩, hq]
    dsimp only
    rw [hval (generateSecretsAndHashLock env.rnd env.hashSecret env.packIdxHash
      q.secretsCount)]
  · intro o now hdl
    unfold validateOrderParams
    rw [hdl]
    simp only [Option.getD_some]
    rw [if_neg (show ¬(now + 3600 ≤ now) by omega)]
    split_ifs
    all_goals try (intro hc; injection hc with hc; exact absurd hc (by decide))
    cases hm : jsBigIntOfString (o.amount.getD "") with
    | none =>
      dsimp only
      intro hc; injection hc with hc; exact absurd hc (by decide)
    | some a =>
      dsimp only
      split_ifs with ha
      · intro hc; injection hc with hc; exact absurd hc (by decide)
      · intro hc; exact Except.noConfusion hc

/-- Witness for C2 (amended): on a concrete manager with connected
adapters and a succeeding settlement service, creating an order with
amount `"0"` fails with the invalid-order message, leaves the state
unchanged, and invokes only the quote endpoint. -/
theorem createOrder_nonpositive_amount_fails_before_placement_witness :
    GeneralizedFusionOrderManager.createOrder c2State c2Params c2Env =
      (.error "Amount must be positive", c2State, [ServiceCall.getQuote]) := by
  exact createOrder_nonpositive_amount_fails_before_placement.1 c2State c2Params c2Env
    { secretsCount := 1 } 0 (by decide) (by decide) rfl (by decide) (by decide)
    (by decide) (by decide) (by decide) rfl (by omega)

/-- C9: REFUTED on the code — `validateOrderParams` can raise even when no
required field is missing, the amount is positive, and the deadline is in
the future: a *present* but JS-falsy field (here the numeric chain id `0`)
fails the source's truthiness check and is reported as missing. -/
theorem validateOrderParams_rejects_present_zero_chain :
    validateOrderParams c9Params 1000 = .error "Missing required field: srcChain" ∧
    c9Params.someRequiredFieldMissingSpec = false ∧
    jsBigIntOfString (c9Params.amount.getD "") = some 5 ∧ ¬ ((5:Int) ≤ 0) ∧
    ¬ (c9Params.deadline.getD 0 ≤ (1000:Int)) := by
  refine ⟨rfl, by decide, by decide, by decide, by decide⟩

/-- C9 (amended): `validateOrderParams` returns `true` exactly when every
required field is present *and JS-truthy* (absent fields, numeric zero and
the empty string all count as missing), the amount is positive, and the
deadline is strictly in the future; in every other case it raises. -/
theorem validateOrderParams_ok_iff :
    ∀ (o : OrderParams) (now : Int) (a : Int),
      (o.someRequiredFieldFalsy = false →
        jsBigIntOfString (o.amount.getD "") = some a) →
      (validateOrderParams o now = .ok true ↔
        ¬(o.someRequiredFieldFalsy = true ∨ a ≤ 0 ∨ o.deadline.getD 0 ≤ now)) := by
  intro o now a hparse
  by_cases hf : o.someRequiredFieldFalsy = true
  · have hne : ¬ validateOrderParams o now = .ok true := by
      intro hok
      unfold validateOrderParams at hok
      split_ifs at hok with h1 h2 h3 h4 h5 h6 h7
      all_goals
        simp only [Bool.not_eq_true, Bool.not_eq_false'] at h1 h2 h3 h4 h5 h6 h7
      all_goals
        simp [OrderParams.someRequiredFieldFalsy, h1, h2, h3, h4, h5, h6, h7] at hf
    simp [hf, hne]
  · rw [Bool.not_eq_true] at hf
    have hp := hparse hf
    have hfields := hf
    rw [OrderParams.someRequiredFieldFalsy] at hfields
    rw [Bool.or_eq_false_iff, Bool.or_eq_false_iff, Bool.or_eq_false_iff,
      Bool.or_eq_false_iff, Bool.or_eq_false_iff, Bool.or_eq_false_iff,
      Bool.not_eq_false', Bool.not_eq_false', Bool.not_eq_false',
      Bool.not_eq_false', Bool.not_eq_false', Bool.not_eq_false',
      Bool.not_eq_false'] at hfields
    have h1 := hfields.1.1.1.1.1.1
    have h2 := hfields.1.1.1.1.1.2
    have h3 := hfields.1.1.1.1.2
    have h4 := hfields.1.1.1.2
    have h5 := hfields.1.1.2
    have h6 := hfields.1.2
    have h7 := hfields.2
    unfold validateOrderParams
    rw [h1, h2, h3, h4, h5, h6, h7, hp]
    rw [hf]
    split_ifs <;> simp_all
    split <;> simp

/-- Witness for C9 (amended): a fully valid concrete input validates to
`true`. -/
theorem validateOrderParams_ok_iff_witness :
    validateOrderParams c9GoodParams 1500 = .ok true := by
  have h := validateOrderParams_ok_iff c9GoodParams 1500 5 (fun _ => by decide)
  exact h.mpr (by decide)
